import Mathlib

/-!
Verification of the ai-gateway routing / resiliency subsystem.

Shallow embedding of the TypeScript sources into Lean 4:
JavaScript numbers are modelled as exact rationals (`ℚ`), timestamps as
rationals (milliseconds), fallible code as `Except`/`Option`, and the
mutable per-provider state of the registries as explicit state passing.
Each definition is translated from the named source file.
-/

set_option linter.unusedVariables false

/-- Closed provider enumeration from `src/config/providers.ts`. -/
inductive ProviderName
  | openai
  | anthropic
  | google
deriving DecidableEq, Repr

/-- Known OpenAI model id prefixes, from `src/services/providers/openai.ts`. -/
def OPENAI_MODEL_PREFIXES : List String := ["gpt-", "o1-", "o3-", "chatgpt-"]

/-- Known Anthropic model id prefixes, from `src/services/providers/anthropic.ts`. -/
def ANTHROPIC_MODEL_PREFIXES : List String := ["claude-"]

/-- Known Google model id prefixes, from `src/services/providers/google.ts`. -/
def GOOGLE_MODEL_PREFIXES : List String := ["gemini-"]

/-- JavaScript `String.prototype.startsWith`, on the underlying character lists. -/
def strStartsWith (s p : String) : Bool :=
  p.data.isPrefixOf s.data

/-- Provider auto-detection by model id prefix, from
`src/services/providers/index.ts` (`detectProvider`): the prefix families are
scanned in source order (openai, anthropic, google) and `null` is returned
when no prefix matches. -/
def detectProvider (modelId : String) : Option ProviderName :=
  if OPENAI_MODEL_PREFIXES.any (fun p => strStartsWith modelId p) then some .openai
  else if ANTHROPIC_MODEL_PREFIXES.any (fun p => strStartsWith modelId p) then some .anthropic
  else if GOOGLE_MODEL_PREFIXES.any (fun p => strStartsWith modelId p) then some .google
  else none

/-! ## Token bucket (`src/utils/token-bucket.ts`)

The mutable fields `tokens` and `lastRefillAt` are threaded explicitly; each
public method takes the current wall-clock time `now` (the source reads
`Date.now()`) and returns its result together with the updated bucket. -/

/-- State of `class TokenBucket` from `src/utils/token-bucket.ts`. -/
structure TokenBucket where
  maxTokens : ℚ
  refillRate : ℚ
  tokens : ℚ
  lastRefillAt : ℚ
deriving DecidableEq, Repr

/-- The `TokenBucket` constructor: throws unless `maxTokens > 0` and
`refillRate > 0`; the bucket starts full with `lastRefillAt = Date.now()`. -/
def TokenBucket.create (maxTokens refillRate now : ℚ) : Except String TokenBucket :=
  if maxTokens ≤ 0 then .error "maxTokens must be positive"
  else if refillRate ≤ 0 then .error "refillRate must be positive"
  else .ok ⟨maxTokens, refillRate, maxTokens, now⟩

/-- Embeds `TokenBucket.refill`: `tokens = min(maxTokens, tokens + elapsedSeconds * refillRate)`
with `elapsedSeconds = (now - lastRefillAt) / 1000`, then `lastRefillAt = now`. -/
def TokenBucket.refill (b : TokenBucket) (now : ℚ) : TokenBucket :=
  ⟨b.maxTokens, b.refillRate,
    min b.maxTokens (b.tokens + (now - b.lastRefillAt) / 1000 * b.refillRate), now⟩

/-- Embeds `TokenBucket.tryAcquire`: refill, then consume one token iff at least one
full token is available. -/
def TokenBucket.tryAcquire (b : TokenBucket) (now : ℚ) : Bool × TokenBucket :=
  let b' := b.refill now
  if b'.tokens < 1 then (false, b')
  else (true, ⟨b'.maxTokens, b'.refillRate, b'.tokens - 1, b'.lastRefillAt⟩)

/-- Embeds `TokenBucket.getRemaining`: refill, then `Math.floor(tokens)`. -/
def TokenBucket.getRemaining (b : TokenBucket) (now : ℚ) : Int × TokenBucket :=
  let b' := b.refill now
  (⌊b'.tokens⌋, b')

/-- Embeds `TokenBucket.getRetryAfter`: refill; `0` when a token is available,
otherwise `Math.ceil((1 - tokens) / refillRate)`. -/
def TokenBucket.getRetryAfter (b : TokenBucket) (now : ℚ) : Int × TokenBucket :=
  let b' := b.refill now
  if 1 ≤ b'.tokens then (0, b')
  else (⌈(1 - b'.tokens) / b'.refillRate⌉, b')

/-- The three public bucket operations. -/
inductive TBOp
  | tryAcquire
  | getRemaining
  | getRetryAfter
deriving DecidableEq, Repr

/-- One public method call at wall-clock time `now` (state effect only). -/
def TokenBucket.step (b : TokenBucket) (op : TBOp) (now : ℚ) : TokenBucket :=
  match op with
  | .tryAcquire => (b.tryAcquire now).2
  | .getRemaining => (b.getRemaining now).2
  | .getRetryAfter => (b.getRetryAfter now).2

/-- Run a sequence of timestamped public method calls. -/
def TokenBucket.runOps (b : TokenBucket) (ops : List (TBOp × ℚ)) : TokenBucket :=
  ops.foldl (fun acc p => acc.step p.1 p.2) b

/-- Well-formedness carried by every bucket the constructor accepts. -/
def TokenBucket.Inv (b : TokenBucket) : Prop :=
  0 < b.maxTokens ∧ 0 < b.refillRate ∧ 0 ≤ b.tokens ∧ b.tokens ≤ b.maxTokens

theorem TokenBucket.refill_inv (b : TokenBucket) (now : ℚ)
    (h : b.Inv) (hle : b.lastRefillAt ≤ now) : (b.refill now).Inv := by
  obtain ⟨hmax, hrate, h0, hub⟩ := h
  refine ⟨hmax, hrate, ?_, ?_⟩
  · have helapsed : 0 ≤ (now - b.lastRefillAt) / 1000 * b.refillRate := by
      apply mul_nonneg
      · apply div_nonneg (by linarith) (by norm_num)
      · exact le_of_lt hrate
    simp only [TokenBucket.refill, le_min_iff]
    constructor
    · exact le_of_lt hmax
    · linarith
  · simp only [TokenBucket.refill]
    exact min_le_left _ _

theorem TokenBucket.refill_lastRefillAt (b : TokenBucket) (now : ℚ) :
    (b.refill now).lastRefillAt = now := rfl

theorem TokenBucket.step_inv (b : TokenBucket) (op : TBOp) (now : ℚ)
    (h : b.Inv) (hle : b.lastRefillAt ≤ now) : (b.step op now).Inv := by
  have hr := b.refill_inv now h hle
  obtain ⟨hmax, hrate, h0, hub⟩ := hr
  cases op with
  | tryAcquire =>
    simp only [TokenBucket.step, TokenBucket.tryAcquire]
    by_cases hc : (b.refill now).tokens < 1
    · simp only [hc, if_true]
      exact ⟨hmax, hrate, h0, hub⟩
    · simp only [hc, if_false]
      push_neg at hc
      exact ⟨hmax, hrate, by simpa using (by linarith : (0:ℚ) ≤ (b.refill now).tokens - 1),
        by simpa using (by linarith : (b.refill now).tokens - 1 ≤ (b.refill now).maxTokens)⟩
  | getRemaining =>
    simpa only [TokenBucket.step, TokenBucket.getRemaining] using ⟨hmax, hrate, h0, hub⟩
  | getRetryAfter =>
    simp only [TokenBucket.step, TokenBucket.getRetryAfter]
    by_cases hc : (1:ℚ) ≤ (b.refill now).tokens
    · simp only [hc, if_true]
      exact ⟨hmax, hrate, h0, hub⟩
    · simp only [hc, if_false]
      exact ⟨hmax, hrate, h0, hub⟩

theorem TokenBucket.step_lastRefillAt (b : TokenBucket) (op : TBOp) (now : ℚ) :
    (b.step op now).lastRefillAt = now := by
  cases op with
  | tryAcquire =>
    simp only [TokenBucket.step, TokenBucket.tryAcquire]
    split <;> rfl
  | getRemaining => rfl
  | getRetryAfter =>
    simp only [TokenBucket.step, TokenBucket.getRetryAfter]
    split <;> rfl

theorem TokenBucket.runOps_inv (ops : List (TBOp × ℚ)) (b : TokenBucket)
    (h : b.Inv) (hchain : List.Chain (· ≤ ·) b.lastRefillAt (ops.map Prod.snd)) :
    (b.runOps ops).Inv := by
  induction ops generalizing b with
  | nil => exact h
  | cons hd tl ih =>
    obtain ⟨hle, hch⟩ := List.chain_cons.mp hchain
    have hstep := b.step_inv hd.1 hd.2 h hle
    have hlast := b.step_lastRefillAt hd.1 hd.2
    exact ih (b.step hd.1 hd.2) hstep (by rw [hlast]; exact hch)

theorem TokenBucket.step_maxTokens (b : TokenBucket) (op : TBOp) (now : ℚ) :
    (b.step op now).maxTokens = b.maxTokens := by
  cases op with
  | tryAcquire =>
    simp only [TokenBucket.step, TokenBucket.tryAcquire]
    split <;> rfl
  | getRemaining => rfl
  | getRetryAfter =>
    simp only [TokenBucket.step, TokenBucket.getRetryAfter]
    split <;> rfl

theorem TokenBucket.runOps_maxTokens (ops : List (TBOp × ℚ)) (b : TokenBucket) :
    (b.runOps ops).maxTokens = b.maxTokens := by
  induction ops generalizing b with
  | nil => rfl
  | cons hd tl ih =>
    have := ih (b.step hd.1 hd.2)
    simpa [TokenBucket.runOps, TokenBucket.step_maxTokens] using this

/-- Claim C7: a token bucket constructed with `maxTokens > 0` and
`refillRate > 0` (construction fails otherwise) starts full, and its token
count stays within `[0, maxTokens]` across every sequence of `tryAcquire`,
`getRemaining` and `getRetryAfter` calls issued under a monotone wall-clock,
the refill being the lazy `min(max, tokens + elapsedSeconds * refillRate)`
of `TokenBucket.refill`. -/
theorem tokenBucket_bounds (maxTokens refillRate t0 : ℚ) (ops : List (TBOp × ℚ))
    (hmax : 0 < maxTokens) (hrate : 0 < refillRate)
    (hchain : List.Chain (· ≤ ·) t0 (ops.map Prod.snd)) :
    ∃ b0, TokenBucket.create maxTokens refillRate t0 = .ok b0 ∧
      b0.tokens = maxTokens ∧
      0 ≤ (b0.runOps ops).tokens ∧ (b0.runOps ops).tokens ≤ maxTokens ∧
      (∀ m r t : ℚ, m ≤ 0 ∨ r ≤ 0 → ∃ msg, TokenBucket.create m r t = .error msg) := by
  have hinv := TokenBucket.runOps_inv ops ⟨maxTokens, refillRate, maxTokens, t0⟩
    ⟨hmax, hrate, le_of_lt hmax, le_refl _⟩ hchain
  have hmx := TokenBucket.runOps_maxTokens ops ⟨maxTokens, refillRate, maxTokens, t0⟩
  refine ⟨⟨maxTokens, refillRate, maxTokens, t0⟩, ?_, rfl, hinv.2.2.1, ?_, ?_⟩
  · simp only [TokenBucket.create, if_neg (not_le.mpr hmax), if_neg (not_le.mpr hrate)]
  · have := hinv.2.2.2
    rwa [hmx] at this
  · intro m r t hmr
    rcases hmr with hm | hr
    · exact ⟨"maxTokens must be positive", by simp [TokenBucket.create, hm]⟩
    · by_cases hm2 : m ≤ 0
      · exact ⟨"maxTokens must be positive", by simp [TokenBucket.create, hm2]⟩
      · exact ⟨"refillRate must be positive", by simp [TokenBucket.create, hm2, hr]⟩

/-- Witness for C7: a concrete bucket `max = 2`, `refillRate = 1 token/s`,
created at `t = 0`, run through four timestamped calls. -/
theorem tokenBucket_bounds_witness :
    ∃ b0, TokenBucket.create 2 1 0 = .ok b0 ∧
      b0.tokens = 2 ∧
      0 ≤ (b0.runOps [(TBOp.tryAcquire, 0), (TBOp.tryAcquire, 500),
        (TBOp.getRetryAfter, 500), (TBOp.tryAcquire, 2500)]).tokens ∧
      (b0.runOps [(TBOp.tryAcquire, 0), (TBOp.tryAcquire, 500),
        (TBOp.getRetryAfter, 500), (TBOp.tryAcquire, 2500)]).tokens ≤ 2 ∧
      (∀ m r t : ℚ, m ≤ 0 ∨ r ≤ 0 → ∃ msg, TokenBucket.create m r t = .error msg) :=
  tokenBucket_bounds 2 1 0 _ (by norm_num) (by norm_num)
    (by simp only [List.map, List.chain_cons, List.Chain.nil, and_true]; norm_num)

/-! ## Rate-limit middleware (`src/middleware/rate-limiter.ts`)

Decision path of `rateLimiter()` for a single request, from the current
revision of the middleware (the one wired in `src/index.ts` and reading the
validated `env`): parse failure and missing / unknown models fail closed
with OpenAI-format 400 errors before any bucket is consulted. -/

/-- OpenAI-format error envelope relevant to the middleware decisions:
HTTP status, `error.type` and `error.code`. -/
structure GatewayErrorBody where
  status : Nat
  etype : String
  code : String
deriving DecidableEq, Repr

/-- Outcome of the rate-limit middleware: short-circuit with an error
response, or pass the request downstream (`await next()`). -/
inductive RLDecision
  | reject (e : GatewayErrorBody)
  | pass
deriving DecidableEq, Repr

/-- Decision logic of `rateLimiter()`.
`parsedBody = none` models a JSON parse failure; `some none` a body whose
`model` field is absent (and `some (some "")` the falsy empty string, which
the `if (!model)` check also rejects); `acquireOk` is the result of
`bucket.tryAcquire()` for the detected provider's bucket. -/
def rateLimiter (enabled : Bool) (method : String)
    (parsedBody : Option (Option String)) (acquireOk : Bool) : RLDecision :=
  if ¬enabled then .pass
  else if method ≠ "POST" then .pass
  else match parsedBody with
  | none => .reject ⟨400, "invalid_request_error", "invalid_body"⟩
  | some bodyModel =>
    match bodyModel with
    | none => .reject ⟨400, "invalid_request_error", "missing_model"⟩
    | some model =>
      if model = "" then .reject ⟨400, "invalid_request_error", "missing_model"⟩
      else match detectProvider model with
      | none => .reject ⟨400, "invalid_request_error", "unknown_provider"⟩
      | some _ =>
        if ¬acquireOk then .reject ⟨429, "rate_limit_error", "rate_limit_exceeded"⟩
        else .pass

/-- Claim C9: a POST chat-completions request whose `model` maps to no known
provider is rejected by the rate-limit middleware with HTTP 400 and error
type `invalid_request_error`, never passed downstream. -/
theorem rateLimiter_unknown_provider_400 (model : String) (acquireOk : Bool)
    (hm : detectProvider model = none) :
    ∃ code, rateLimiter true "POST" (some (some model)) acquireOk =
      .reject ⟨400, "invalid_request_error", code⟩ := by
  by_cases hempty : model = ""
  · exact ⟨"missing_model", by simp [rateLimiter, hempty]⟩
  · exact ⟨"unknown_provider", by simp [rateLimiter, hempty, hm]⟩

/-- Witness for C9: the model string `llama-3` matches no provider prefix and
is rejected with a 400 `invalid_request_error`. -/
theorem rateLimiter_unknown_provider_400_witness :
    ∃ code, rateLimiter true "POST" (some (some "llama-3")) true =
      .reject ⟨400, "invalid_request_error", code⟩ :=
  rateLimiter_unknown_provider_400 "llama-3" true (by decide)

/-! ## Timeout middleware (current revision, `timeoutMiddleware`)

The repository carries two revisions of `src/middleware/timeout.ts`; the
current one (stored alongside `src/middleware/smart-router.ts`, and the one
whose clamping behaviour every round-2 audit document verifies) clamps the
`X-Timeout-Ms` header into `[MIN_TIMEOUT_MS, MAX_TIMEOUT_MS]`. The effective
timeout resolution of lines 282–317 of that revision is embedded here. -/

/-- Upper clamp for the `X-Timeout-Ms` header (ms). -/
def MAX_TIMEOUT_MS : Int := 120000

/-- Lower clamp for the `X-Timeout-Ms` header (ms). -/
def MIN_TIMEOUT_MS : Int := 1000

/-- Accumulate a run of decimal digits into a natural number. -/
def digitsToNat (ds : List Char) : Nat :=
  ds.foldl (fun acc c => acc * 10 + (c.toNat - Char.toNat '0')) 0

/-- Leading whitespace skipped by JavaScript `Number.parseInt`. -/
def jsSkipWs (l : List Char) : List Char :=
  l.dropWhile (fun c => c = ' ' || c = '\t' || c = '\n' || c = '\r')

/-- Parse the longest leading digit run; `none` when there is none. -/
def jsTakeDigits (l : List Char) : Option Nat :=
  let ds := l.takeWhile Char.isDigit
  if ds.isEmpty then none else some (digitsToNat ds)

/-- JavaScript `Number.parseInt(s, 10)`: skip leading whitespace, read an
optional sign and then the longest digit prefix; `none` models `NaN`. -/
def jsParseInt (s : String) : Option Int :=
  match jsSkipWs s.data with
  | '-' :: rest => (jsTakeDigits rest).map (fun n => -(n : Int))
  | '+' :: rest => (jsTakeDigits rest).map (fun n => (n : Int))
  | l => (jsTakeDigits l).map (fun n => (n : Int))

/-- Per-request timeout configuration of the middleware: factory default and
the per-provider map built from the validated environment. -/
structure TimeoutConfig where
  defaultMs : Int
  perProvider : ProviderName → Int

/-- Effective timeout resolution for a POST chat-completions request
(current `timeoutMiddleware` revision): start from the default, override with
the per-provider timeout when the body's `model` detects a provider, then
give the `X-Timeout-Ms` header highest priority — used only when it parses
to a positive integer, and then clamped by
`Math.max(MIN_TIMEOUT_MS, Math.min(parsed, MAX_TIMEOUT_MS))`.
`bodyModel = none` models a missing body / parse failure; the falsy empty
string skips provider detection (`if (body?.model)`) and an empty header is
falsy for `if (headerTimeout)`. -/
def resolveEffectiveTimeout (cfg : TimeoutConfig) (bodyModel : Option String)
    (headerTimeout : Option String) : Int :=
  let base : Int :=
    match bodyModel with
    | some model =>
      if model = "" then cfg.defaultMs
      else match detectProvider model with
        | some p => cfg.perProvider p
        | none => cfg.defaultMs
    | none => cfg.defaultMs
  match headerTimeout with
  | none => base
  | some h =>
    if h = "" then base
    else match jsParseInt h with
      | some parsed =>
        if 0 < parsed then max MIN_TIMEOUT_MS (min parsed MAX_TIMEOUT_MS) else base
      | none => base

/-- Claim C8: the per-request timeout resolution honours the priority
header > per-provider > default, and a header-derived timeout is always
clamped into `[1000 ms, 120000 ms]`. -/
theorem timeout_resolution_clamped (cfg : TimeoutConfig) (bodyModel : Option String)
    (h : String) (n : Int) (hparse : jsParseInt h = some n) (hpos : 0 < n)
    (hne : h ≠ "") :
    resolveEffectiveTimeout cfg bodyModel (some h)
      = max MIN_TIMEOUT_MS (min n MAX_TIMEOUT_MS) ∧
    MIN_TIMEOUT_MS ≤ resolveEffectiveTimeout cfg bodyModel (some h) ∧
    resolveEffectiveTimeout cfg bodyModel (some h) ≤ MAX_TIMEOUT_MS ∧
    (∀ cfg2 : TimeoutConfig, ∀ m p, detectProvider m = some p →
      resolveEffectiveTimeout cfg2 (some m) none = cfg2.perProvider p) ∧
    (∀ cfg2 : TimeoutConfig, ∀ m, detectProvider m = none →
      resolveEffectiveTimeout cfg2 (some m) none = cfg2.defaultMs) ∧
    (∀ cfg2 : TimeoutConfig, resolveEffectiveTimeout cfg2 none none = cfg2.defaultMs) := by
  have hres : resolveEffectiveTimeout cfg bodyModel (some h)
      = max MIN_TIMEOUT_MS (min n MAX_TIMEOUT_MS) := by
    simp only [resolveEffectiveTimeout, hparse, if_neg hne, hpos, if_true]
  refine ⟨hres, ?_, ?_, ?_, ?_, ?_⟩
  · rw [hres]; exact le_max_left _ _
  · rw [hres]
    have h1 : min n MAX_TIMEOUT_MS ≤ MAX_TIMEOUT_MS := min_le_right _ _
    have h2 : MIN_TIMEOUT_MS ≤ MAX_TIMEOUT_MS := by norm_num [MIN_TIMEOUT_MS, MAX_TIMEOUT_MS]
    exact max_le h2 h1
  · intro cfg2 m p hdet
    have hm : m ≠ "" := by
      intro hcon
      rw [hcon] at hdet
      rw [show detectProvider "" = none from by decide] at hdet
      exact Option.noConfusion hdet
    simp only [resolveEffectiveTimeout, if_neg hm, hdet]
  · intro cfg2 m hdet
    by_cases hm : m = ""
    · simp only [resolveEffectiveTimeout, hm, if_true]
    · simp only [resolveEffectiveTimeout, if_neg hm, hdet]
  · intro cfg2
    rfl

/-- Witness for C8: the header `X-Timeout-Ms: 5` parses to 5 and is clamped
up to 1000 ms for a `gpt-4o` request. -/
theorem timeout_resolution_clamped_witness :
    resolveEffectiveTimeout ⟨30000, fun _ => 30000⟩ (some "gpt-4o") (some "5")
      = max MIN_TIMEOUT_MS (min 5 MAX_TIMEOUT_MS) ∧
    MIN_TIMEOUT_MS ≤ resolveEffectiveTimeout ⟨30000, fun _ => 30000⟩ (some "gpt-4o") (some "5") ∧
    resolveEffectiveTimeout ⟨30000, fun _ => 30000⟩ (some "gpt-4o") (some "5") ≤ MAX_TIMEOUT_MS ∧
    (∀ cfg2 : TimeoutConfig, ∀ m p, detectProvider m = some p →
      resolveEffectiveTimeout cfg2 (some m) none = cfg2.perProvider p) ∧
    (∀ cfg2 : TimeoutConfig, ∀ m, detectProvider m = none →
      resolveEffectiveTimeout cfg2 (some m) none = cfg2.defaultMs) ∧
    (∀ cfg2 : TimeoutConfig, resolveEffectiveTimeout cfg2 none none = cfg2.defaultMs) :=
  timeout_resolution_clamped ⟨30000, fun _ => 30000⟩ (some "gpt-4o") "5" 5
    (by decide) (by norm_num) (by decide)

/-! ## Latency aggregation (`src/metrics/aggregator.ts`) and tracker
(`src/metrics/latency-tracker.ts`)

Per-provider state of `LatencyTracker` threaded explicitly. The tracker's
`Map` is keyed by provider and providers are independent, so the embedding
carries the single entry relevant to a call (`none` models a provider with
no entry yet). -/

/-- JavaScript `Math.round` (half away from zero on positives; JS actually
rounds half toward `+∞`, which is `⌊x + 1/2⌋`). -/
def jsRound (q : ℚ) : Int := ⌊q + 1/2⌋

/-- Stable ascending insertion used to model `[...samples].sort((a, b) => a - b)`. -/
def insertSorted (x : ℚ) : List ℚ → List ℚ
  | [] => [x]
  | y :: ys => if x ≤ y then x :: y :: ys else y :: insertSorted x ys

/-- Ascending numeric sort of a sample list. -/
def sortAscending (l : List ℚ) : List ℚ := l.foldr insertSorted []

/-- Embeds `calculateEma` from `src/metrics/aggregator.ts`:
`alpha * newValue + (1 - alpha) * currentEma`, throwing a `RangeError`
when `alpha` lies outside `[0, 1]`. -/
def calculateEma (currentEma newValue alpha : ℚ) : Except String ℚ :=
  if alpha < 0 ∨ 1 < alpha then .error "alpha must be 0-1"
  else .ok (alpha * newValue + (1 - alpha) * currentEma)

/-- Embeds `calculatePercentile` from `src/metrics/aggregator.ts`: nearest-rank
percentile `sorted[max(0, ceil(p/100 * N) - 1)]`, `0` on an empty sample
list, `RangeError` outside `[0, 100]`. -/
def calculatePercentile (samples : List ℚ) (percentile : ℚ) : Except String ℚ :=
  if samples.isEmpty then .ok 0
  else if percentile < 0 ∨ 100 < percentile then .error "percentile must be 0-100"
  else
    let sorted := sortAscending samples
    if percentile = 0 then .ok (sorted.headD 0)
    else if percentile = 100 then .ok (sorted.getLastD 0)
    else
      let rank : Int := ⌈percentile / 100 * (samples.length : ℚ)⌉ - 1
      .ok (sorted.getD (max 0 rank).toNat 0)

/-- Structure `LatencyRecord` from `src/types/metrics.ts`. -/
structure LatencyRecord where
  provider : String
  modelId : String
  ttfbMs : ℚ
  totalMs : ℚ
  timestamp : Int
  success : Bool
deriving DecidableEq, Repr

/-- Structure `ProviderLatencyState` from `src/metrics/latency-tracker.ts`. -/
structure ProviderLatencyState where
  samples : List ℚ
  ema : ℚ
  initialised : Bool
  records : List LatencyRecord
  lastUpdated : Int
deriving DecidableEq, Repr

/-- Window bound enforcement after a push: when `samples.length > windowSize`
both the sample window and the record log shift their first element. -/
def trimWindow (windowSize : Nat) (s : ProviderLatencyState) : ProviderLatencyState :=
  if windowSize < s.samples.length then
    ⟨s.samples.drop 1, s.ema, s.initialised, s.records.drop 1, s.lastUpdated⟩
  else s

/-- Embeds `LatencyTracker.recordLatency`: seeds the EMA with the first observation
for a fresh provider, otherwise applies `calculateEma`; appends `totalMs` to
the sample window and the full record to the record log unconditionally —
including when `success = false` — then trims to the window bound. -/
def recordLatency (windowSize : Nat) (alpha : ℚ) (provider modelId : String)
    (ttfbMs totalMs : ℚ) (success : Bool) (now : Int)
    (st : Option ProviderLatencyState) : Except String ProviderLatencyState :=
  let record : LatencyRecord := ⟨provider, modelId, ttfbMs, totalMs, now, success⟩
  match st with
  | none =>
    .ok (trimWindow windowSize ⟨[totalMs], totalMs, true, [record], now⟩)
  | some s => do
    let newEma ← calculateEma s.ema totalMs alpha
    .ok (trimWindow windowSize
      ⟨s.samples ++ [totalMs], newEma, s.initialised, s.records ++ [record], now⟩)

/-- Structure `LatencyStats` snapshot from `src/types/metrics.ts`. -/
structure LatencyStats where
  provider : String
  sampleCount : Nat
  emaMs : ℚ
  p50Ms : ℚ
  p95Ms : ℚ
  p99Ms : ℚ
  lastUpdated : Int
deriving DecidableEq, Repr

/-- Embeds `LatencyTracker.getStats`: zero-valued when nothing is recorded,
otherwise EMA rounded to two decimals plus nearest-rank p50/p95/p99 over the
current sample window. -/
def getStats (provider : String) (st : Option ProviderLatencyState) :
    Except String LatencyStats :=
  match st with
  | none => .ok ⟨provider, 0, 0, 0, 0, 0, 0⟩
  | some s =>
    if s.samples.isEmpty then .ok ⟨provider, 0, 0, 0, 0, 0, 0⟩
    else do
      let p50 ← calculatePercentile s.samples 50
      let p95 ← calculatePercentile s.samples 95
      let p99 ← calculatePercentile s.samples 99
      pure ⟨provider, s.samples.length, (jsRound (s.ema * 100) : ℚ) / 100,
        p50, p95, p99, s.lastUpdated⟩

/-- Claim C1: the spec requires error records (`success = false`, issued by
`ProviderRegistry.reportError` as `recordLatency(provider, modelId, 0, 0,
false)`) to leave the EMA and percentile statistics unchanged. The code
violates this: evaluated at a provider whose only prior sample is a 100 ms
success (EMA 100, p50 100, default `alpha = 0.3`), one error record drags
`emaMs` from 100 to 70 and `p50Ms` from 100 to 0 — only the claim's
"the record log grows" part holds (1 record to 2). -/
theorem reportError_pollutes_latency_stats :
    recordLatency 100 (3/10) "openai" "gpt-4o" 100 100 true 1000 none
      = .ok ⟨[100], 100, true, [⟨"openai", "gpt-4o", 100, 100, 1000, true⟩], 1000⟩ ∧
    recordLatency 100 (3/10) "openai" "gpt-4o" 0 0 false 2000
        (some ⟨[100], 100, true, [⟨"openai", "gpt-4o", 100, 100, 1000, true⟩], 1000⟩)
      = .ok ⟨[100, 0], 70, true, [⟨"openai", "gpt-4o", 100, 100, 1000, true⟩,
          ⟨"openai", "gpt-4o", 0, 0, 2000, false⟩], 2000⟩ ∧
    getStats "openai"
        (some ⟨[100], 100, true, [⟨"openai", "gpt-4o", 100, 100, 1000, true⟩], 1000⟩)
      = .ok ⟨"openai", 1, 100, 100, 100, 100, 1000⟩ ∧
    getStats "openai"
        (some ⟨[100, 0], 70, true, [⟨"openai", "gpt-4o", 100, 100, 1000, true⟩,
          ⟨"openai", "gpt-4o", 0, 0, 2000, false⟩], 2000⟩)
      = .ok ⟨"openai", 2, 70, 0, 100, 100, 2000⟩ := by
  have hc1 : (⌈(1:ℚ)/2⌉ : Int) = 1 := by norm_num [Int.ceil_eq_iff]
  have hc2 : (⌈(19:ℚ)/20⌉ : Int) = 1 := by norm_num [Int.ceil_eq_iff]
  have hc3 : (⌈(99:ℚ)/100⌉ : Int) = 1 := by norm_num [Int.ceil_eq_iff]
  have hc4 : (⌈(19:ℚ)/10⌉ : Int) = 2 := by norm_num [Int.ceil_eq_iff]
  have hc5 : (⌈(99:ℚ)/50⌉ : Int) = 2 := by norm_num [Int.ceil_eq_iff]
  refine ⟨?_, ?_, ?_, ?_⟩
  · norm_num [recordLatency, trimWindow]
  · norm_num [recordLatency, trimWindow, calculateEma, Except.bind, bind]
  · norm_num [getStats, calculatePercentile, sortAscending, insertSorted, jsRound,
      Except.bind, bind, pure, Except.pure, hc1, hc2, hc3, hc4, hc5]
  · norm_num [getStats, calculatePercentile, sortAscending, insertSorted, jsRound,
      Except.bind, bind, pure, Except.pure, hc1, hc2, hc3, hc4, hc5]

/-! ## Provider registry (`src/routing/provider-registry.ts`)

Per-provider circuit breaker. The registry's `Map` is keyed by provider and
entries are independent, so the embedding passes the single `ProviderEntry`
a call touches. `isAvailableEntry` both reads and mutates the entry (the
half-open transition happens inside the read), so it returns the answer
together with the updated entry. -/

/-- Constant `CIRCUIT_BREAKER_THRESHOLD` (consecutive errors). -/
def CIRCUIT_BREAKER_THRESHOLD : Nat := 5

/-- Constant `CIRCUIT_BREAKER_COOLDOWN_MS`. -/
def CIRCUIT_BREAKER_COOLDOWN_MS : Int := 30000

/-- String form of a provider id. -/
def ProviderName.str : ProviderName → String
  | .openai => "openai"
  | .anthropic => "anthropic"
  | .google => "google"

/-- Structure `ProviderEntry` from `src/routing/provider-registry.ts`.
`rateLimitRemaining = none` models `Number.POSITIVE_INFINITY`. -/
structure ProviderEntry where
  id : ProviderName
  consecutiveErrors : Nat
  lastErrorAt : Option Int
  circuitOpenedAt : Option Int
  rateLimitRemaining : Option ℚ
  rateLimitResetAt : Int
deriving DecidableEq, Repr

/-- Constructor state of an entry (registry startup). -/
def ProviderEntry.init (id : ProviderName) : ProviderEntry :=
  ⟨id, 0, none, none, none, 0⟩

/-- Entry effect of `ProviderRegistry.reportSuccess`: reset the error count
and close the circuit. -/
def reportSuccessEntry (e : ProviderEntry) : ProviderEntry :=
  ⟨e.id, 0, e.lastErrorAt, none, e.rateLimitRemaining, e.rateLimitResetAt⟩

/-- Entry effect of `ProviderRegistry.reportError`: increment the error
count, stamp `lastErrorAt`, and open the circuit once the threshold is
reached while the circuit is closed. -/
def reportErrorEntry (now : Int) (e : ProviderEntry) : ProviderEntry :=
  let e1 : ProviderEntry :=
    ⟨e.id, e.consecutiveErrors + 1, some now, e.circuitOpenedAt,
      e.rateLimitRemaining, e.rateLimitResetAt⟩
  if CIRCUIT_BREAKER_THRESHOLD ≤ e1.consecutiveErrors ∧ e1.circuitOpenedAt = none then
    ⟨e1.id, e1.consecutiveErrors, e1.lastErrorAt, some now,
      e1.rateLimitRemaining, e1.rateLimitResetAt⟩
  else e1

/-- Embeds `ProviderRegistry.isAvailableEntry`: unavailable while the cooldown
runs; once the cooldown has elapsed the circuit is cleared
(`circuitOpenedAt := null`, `consecutiveErrors := 0`) and the provider
reported available, a state change performed inside the read. -/
def isAvailableEntry (now : Int) (e : ProviderEntry) : Bool × ProviderEntry :=
  match e.circuitOpenedAt with
  | some openedAt =>
    if now - openedAt < CIRCUIT_BREAKER_COOLDOWN_MS then (false, e)
    else (true, ⟨e.id, 0, e.lastErrorAt, none, e.rateLimitRemaining, e.rateLimitResetAt⟩)
  | none => (true, e)

/-- Embeds `ProviderRegistry.reportError` in full: the entry effect plus the
forward `latencyTracker.recordLatency(provider, modelId, 0, 0, false)`. -/
def reportError (windowSize : Nat) (alpha : ℚ) (modelId : String) (now : Int)
    (e : ProviderEntry) (lat : Option ProviderLatencyState) :
    Except String (ProviderEntry × ProviderLatencyState) := do
  let lat' ← recordLatency windowSize alpha e.id.str modelId 0 0 false now lat
  .ok (reportErrorEntry now e, lat')

/-- Claim C2: the spec requires a failed half-open probe to reopen the
circuit (opened-at := time of failure) so that `isAvailable` is `false`
right after the failed probe. The code instead fully closes the circuit and
resets the error count when the cooldown elapses, so the failed probe leaves
`consecutiveErrors = 1 < 5` with the circuit closed and the provider still
available: after five errors at `t = 0` (circuit opens at 0), the probe
allowed at `t = 30000` fails, and `isAvailableEntry` at `t = 30001`
returns `true` where the claim demands `false`. -/
theorem halfOpen_failed_probe_leaves_provider_available :
    (reportErrorEntry 0)^[5] (ProviderEntry.init .openai)
      = ⟨.openai, 5, some 0, some 0, none, 0⟩ ∧
    isAvailableEntry 29999 ⟨.openai, 5, some 0, some 0, none, 0⟩
      = (false, ⟨.openai, 5, some 0, some 0, none, 0⟩) ∧
    isAvailableEntry 30000 ⟨.openai, 5, some 0, some 0, none, 0⟩
      = (true, ⟨.openai, 0, some 0, none, none, 0⟩) ∧
    reportErrorEntry 30000 ⟨.openai, 0, some 0, none, none, 0⟩
      = ⟨.openai, 1, some 30000, none, none, 0⟩ ∧
    isAvailableEntry 30001 ⟨.openai, 1, some 30000, none, none, 0⟩
      = (true, ⟨.openai, 1, some 30000, none, none, 0⟩) := by
  refine ⟨?_, ?_, ?_, ?_, ?_⟩ <;> decide

/-! ## Fallback handler (`src/services/router/fallback-handler.ts`)

`executeWithFallback` / `tryProvider` embedded as total functions. The async
control flow is deterministic, so it is modelled with an explicit clock:
every execute call and every backoff sleep advances the clock by its
duration, and the overall `AbortController` (whose timer fires
`totalTimeoutMs` after start) reads as aborted at a checkpoint exactly when
the clock has reached `totalTimeoutMs`. The caller's execute function is a
script indexed by the number of calls made so far; each outcome carries the
verdict `isRetryableError` would give for its error, since that
classification is a pure function of the thrown error. -/

/-- Structure `FallbackConfig` from `src/types/fallback.ts` (all durations in ms). -/
structure FallbackConfig where
  maxRetries : Nat
  baseBackoffMs : Nat
  maxBackoffMs : Nat
  totalTimeoutMs : Nat
deriving DecidableEq, Repr

/-- Modelled from the spec: `calculateBackoff` of `retry-strategy.ts` (the
file is not under `src/`; §4.5 gives `min(max, base · 2^attempt)`, jitter
left to the implementer). Only the clock advance depends on it here. -/
def calculateBackoff (attempt baseBackoffMs maxBackoffMs : Nat) : Nat :=
  min maxBackoffMs (baseBackoffMs * 2 ^ attempt)

/-- Structure `RetryAttempt` from `src/types/fallback.ts`: `success = true` models
`error: null`. -/
structure RetryAttempt where
  provider : String
  success : Bool
  latencyMs : Nat
  timestamp : Nat
deriving DecidableEq, Repr

/-- Outcome of one call of the caller's execute function: a value or an
error, with its duration and (for errors) its retryability classification. -/
inductive ExecOutcome (T : Type)
  | ok (v : T) (latencyMs : Nat)
  | err (retryable : Bool) (latencyMs : Nat)

/-- Clock and attempt log threaded through the handler; the number of
execute calls made so far equals `attempts.length` (each call records
exactly one attempt). -/
structure FbState where
  clock : Nat
  attempts : List RetryAttempt
deriving DecidableEq, Repr

/-- Embeds `FallbackHandler.tryProvider`: up to `fuel` further attempts against one
provider (`fuel` starts at `maxAttempts`, and `attempt < maxAttempts - 1`,
i.e. "retries remain", is `0 < fuel` after peeling this attempt). Checks the
overall deadline before each call and right after a failed call; on a
retryable failure with retries left it sleeps the backoff and loops;
otherwise it returns `none` so the caller falls over to the next provider. -/
def tryProviderGo {T : Type} (cfg : FallbackConfig) (exec : Nat → ExecOutcome T)
    (provider : String) : Nat → Nat → FbState → Option T × FbState
  | 0, _, s => (none, s)
  | fuel + 1, attempt, s =>
    if cfg.totalTimeoutMs ≤ s.clock then (none, s)
    else
      match exec s.attempts.length with
      | .ok v lat =>
        (some v, ⟨s.clock + lat, s.attempts ++ [⟨provider, true, lat, s.clock⟩]⟩)
      | .err retryable lat =>
        let s' : FbState := ⟨s.clock + lat, s.attempts ++ [⟨provider, false, lat, s.clock⟩]⟩
        if cfg.totalTimeoutMs ≤ s'.clock then (none, s')
        else if retryable ∧ 0 < fuel then
          tryProviderGo cfg exec provider fuel (attempt + 1)
            ⟨s'.clock + calculateBackoff attempt cfg.baseBackoffMs cfg.maxBackoffMs, s'.attempts⟩
        else (none, s')

/-- Provider loop of `executeWithFallback`: iterate the ordered provider
list, breaking out as soon as the overall deadline has fired; streaming
reduces the per-provider attempt budget to 1. -/
def fallbackGo {T : Type} (cfg : FallbackConfig) (exec : Nat → ExecOutcome T)
    (streaming : Bool) : List String → FbState → Option T × FbState
  | [], s => (none, s)
  | p :: rest, s =>
    if cfg.totalTimeoutMs ≤ s.clock then (none, s)
    else
      match tryProviderGo cfg exec p (if streaming then 1 else cfg.maxRetries + 1) 0 s with
      | (some v, s') => (some v, s')
      | (none, s') => fallbackGo cfg exec streaming rest s'

/-- Structure `FallbackResult` from `src/types/fallback.ts`. -/
structure FallbackResult (T : Type) where
  result : T
  attemptsUsed : Nat
  providersTriedCount : Nat
  attempts : List RetryAttempt

/-- The two terminal errors, `FallbackTimeoutError` (`statusCode = 504`,
carrying the attempt log) and `AllProvidersFailedError` (`statusCode = 503`,
carrying the attempt log from which its providers-tried summary string is
derived). -/
inductive FallbackError
  | fallbackTimeout (totalTimeoutMs : Nat) (attempts : List RetryAttempt)
  | allProvidersFailed (attempts : List RetryAttempt)
deriving DecidableEq, Repr

/-- Final loop state of one `executeWithFallback` invocation, started at
clock 0 with an empty attempt log. -/
def fallbackFinal {T : Type} (cfg : FallbackConfig) (providers : List String)
    (exec : Nat → ExecOutcome T) (streaming : Bool) : Option T × FbState :=
  fallbackGo cfg exec streaming providers ⟨0, []⟩

/-- Embeds `FallbackHandler.executeWithFallback`: first success wins; with no
success, the overall deadline having fired selects `FallbackTimeoutError`,
otherwise every provider was exhausted and `AllProvidersFailedError` is
raised. -/
def executeWithFallback {T : Type} (cfg : FallbackConfig) (providers : List String)
    (exec : Nat → ExecOutcome T) (streaming : Bool) :
    Except FallbackError (FallbackResult T) :=
  match fallbackFinal cfg providers exec streaming with
  | (some v, s) =>
    .ok ⟨v, s.attempts.length, (s.attempts.map (fun a => a.provider)).eraseDups.length,
      s.attempts⟩
  | (none, s) =>
    if cfg.totalTimeoutMs ≤ s.clock then
      .error (.fallbackTimeout cfg.totalTimeoutMs s.attempts)
    else
      .error (.allProvidersFailed s.attempts)

theorem tryProviderGo_length_le {T : Type} (cfg : FallbackConfig)
    (exec : Nat → ExecOutcome T) (provider : String) :
    ∀ (fuel attempt : Nat) (s : FbState),
      (tryProviderGo cfg exec provider fuel attempt s).2.attempts.length
        ≤ s.attempts.length + fuel := by
  intro fuel
  induction fuel with
  | zero => intro attempt s; simp [tryProviderGo]
  | succ fuel ih =>
    intro attempt s
    simp only [tryProviderGo]
    split
    · simp
    · cases hexec : exec s.attempts.length with
      | ok v lat => simp
      | err retryable lat =>
        simp only []
        split
        · simp
        · split
          · refine le_trans (ih (attempt + 1) _) ?_
            simp only [List.length_append, List.length_cons, List.length_nil]
            omega
          · simp

theorem fallbackGo_length_le {T : Type} (cfg : FallbackConfig)
    (exec : Nat → ExecOutcome T) (streaming : Bool) :
    ∀ (providers : List String) (s : FbState),
      (fallbackGo cfg exec streaming providers s).2.attempts.length
        ≤ s.attempts.length
          + providers.length * (if streaming then 1 else cfg.maxRetries + 1) := by
  intro providers
  induction providers with
  | nil => intro s; simp [fallbackGo]
  | cons p rest ih =>
    intro s
    simp only [fallbackGo]
    split
    · simp only [List.length_cons]
      calc s.attempts.length ≤ s.attempts.length := le_refl _
        _ ≤ _ := Nat.le_add_right _ _
    · rcases htry : tryProviderGo cfg exec p (if streaming then 1 else cfg.maxRetries + 1) 0 s
        with ⟨r, s'⟩
      have hlen : s'.attempts.length
          ≤ s.attempts.length + (if streaming then 1 else cfg.maxRetries + 1) := by
        have := tryProviderGo_length_le cfg exec p
          (if streaming then 1 else cfg.maxRetries + 1) 0 s
        rw [htry] at this
        exact this
      cases r with
      | some v =>
        simp only [List.length_cons]
        calc s'.attempts.length
            ≤ s.attempts.length + (if streaming then 1 else cfg.maxRetries + 1) := hlen
          _ ≤ s.attempts.length
              + (rest.length + 1) * (if streaming then 1 else cfg.maxRetries + 1) := by
            have : (1 : Nat) * (if streaming then 1 else cfg.maxRetries + 1)
                ≤ (rest.length + 1) * (if streaming then 1 else cfg.maxRetries + 1) :=
              Nat.mul_le_mul_right _ (by omega)
            omega
      | none =>
        simp only [List.length_cons]
        calc (fallbackGo cfg exec streaming rest s').2.attempts.length
            ≤ s'.attempts.length
              + rest.length * (if streaming then 1 else cfg.maxRetries + 1) := ih s'
          _ ≤ s.attempts.length
              + (rest.length + 1) * (if streaming then 1 else cfg.maxRetries + 1) := by
            have hmul : (rest.length + 1) * (if streaming then 1 else cfg.maxRetries + 1)
                = rest.length * (if streaming then 1 else cfg.maxRetries + 1)
                  + (if streaming then 1 else cfg.maxRetries + 1) := by ring
            omega

/-- Claim C5: `executeWithFallback` terminates (it is a total function of
this embedding) and records at most `|providers| · (maxRetries + 1)`
execute calls — each call appends exactly one attempt, so the attempt log
measures the call count — and at most `|providers|` calls when
`streaming = true`; a tripped deadline can only cut the count further. -/
theorem executeWithFallback_call_bound {T : Type} (cfg : FallbackConfig)
    (providers : List String) (exec : Nat → ExecOutcome T) (streaming : Bool) :
    (fallbackFinal cfg providers exec streaming).2.attempts.length
      ≤ providers.length * (cfg.maxRetries + 1) ∧
    (streaming = true →
      (fallbackFinal cfg providers exec streaming).2.attempts.length ≤ providers.length) := by
  have h := fallbackGo_length_le cfg exec streaming providers ⟨0, []⟩
  simp only [List.length_nil, Nat.zero_add] at h
  simp only [fallbackFinal]
  constructor
  · refine le_trans h ?_
    by_cases hs : streaming
    · simp only [hs, if_true]
      exact Nat.mul_le_mul_left _ (by omega)
    · simp only [hs, if_false]
      exact le_refl _
  · intro hs
    subst hs
    simpa using h

/-- Witness for C5: two providers, `maxRetries = 2`, an always-failing
retryable script — the attempt log stays within both bounds (streaming). -/
theorem executeWithFallback_call_bound_witness :
    (fallbackFinal ⟨2, 100, 1000, 30000⟩ ["openai", "anthropic"]
        (fun _ => ExecOutcome.err true 10 : Nat → ExecOutcome Nat) true).2.attempts.length
      ≤ (["openai", "anthropic"] : List String).length * (2 + 1) ∧
    (true = true →
      (fallbackFinal ⟨2, 100, 1000, 30000⟩ ["openai", "anthropic"]
          (fun _ => ExecOutcome.err true 10 : Nat → ExecOutcome Nat) true).2.attempts.length
        ≤ (["openai", "anthropic"] : List String).length) :=
  executeWithFallback_call_bound ⟨2, 100, 1000, 30000⟩ ["openai", "anthropic"]
    (fun _ => ExecOutcome.err true 10 : Nat → ExecOutcome Nat) true

theorem tryProviderGo_attempts_spec {T : Type} (cfg : FallbackConfig)
    (exec : Nat → ExecOutcome T) (provider : String) :
    ∀ (fuel attempt : Nat) (s : FbState), (∀ a ∈ s.attempts, a.success = false) →
      (∀ v s', tryProviderGo cfg exec provider fuel attempt s = (some v, s') →
        ∃ pre last, s'.attempts = pre ++ [last] ∧ last.success = true ∧
          ∀ a ∈ pre, a.success = false) ∧
      (∀ s', tryProviderGo cfg exec provider fuel attempt s = (none, s') →
        ∀ a ∈ s'.attempts, a.success = false) := by
  intro fuel
  induction fuel with
  | zero =>
    intro attempt s hall
    constructor
    · intro v s' heq
      simp [tryProviderGo] at heq
    · intro s' heq
      simp only [tryProviderGo, Prod.mk.injEq] at heq
      rw [← heq.2]
      exact hall
  | succ fuel ih =>
    intro attempt s hall
    constructor
    · intro v s' heq
      simp only [tryProviderGo] at heq
      split at heq
      · simp at heq
      · cases hexec : exec s.attempts.length with
        | ok w lat =>
          rw [hexec] at heq
          simp only [Prod.mk.injEq, Option.some.injEq] at heq
          refine ⟨s.attempts, ⟨provider, true, lat, s.clock⟩, ?_, rfl, hall⟩
          rw [← heq.2]
        | err retryable lat =>
          rw [hexec] at heq
          simp only [] at heq
          split at heq
          · simp at heq
          · split at heq
            · have hall' : ∀ a ∈ s.attempts ++ [(⟨provider, false, lat, s.clock⟩ : RetryAttempt)],
                  a.success = false := by
                intro a ha
                rcases List.mem_append.mp ha with h1 | h2
                · exact hall a h1
                · simp at h2
                  rw [h2]
              exact (ih (attempt + 1) _ hall').1 v s' heq
            · simp at heq
    · intro s' heq
      simp only [tryProviderGo] at heq
      split at heq
      · simp only [Prod.mk.injEq] at heq
        rw [← heq.2]
        exact hall
      · cases hexec : exec s.attempts.length with
        | ok w lat =>
          rw [hexec] at heq
          simp at heq
        | err retryable lat =>
          rw [hexec] at heq
          simp only [] at heq
          have hall' : ∀ a ∈ s.attempts ++ [(⟨provider, false, lat, s.clock⟩ : RetryAttempt)],
              a.success = false := by
            intro a ha
            rcases List.mem_append.mp ha with h1 | h2
            · exact hall a h1
            · simp at h2
              rw [h2]
          split at heq
          · simp only [Prod.mk.injEq] at heq
            rw [← heq.2]
            exact hall'
          · split at heq
            · exact (ih (attempt + 1) _ hall').2 s' heq
            · simp only [Prod.mk.injEq] at heq
              rw [← heq.2]
              exact hall'

theorem fallbackGo_attempts_spec {T : Type} (cfg : FallbackConfig)
    (exec : Nat → ExecOutcome T) (streaming : Bool) :
    ∀ (providers : List String) (s : FbState), (∀ a ∈ s.attempts, a.success = false) →
      (∀ v s', fallbackGo cfg exec streaming providers s = (some v, s') →
        ∃ pre last, s'.attempts = pre ++ [last] ∧ last.success = true ∧
          ∀ a ∈ pre, a.success = false) ∧
      (∀ s', fallbackGo cfg exec streaming providers s = (none, s') →
        ∀ a ∈ s'.attempts, a.success = false) := by
  intro providers
  induction providers with
  | nil =>
    intro s hall
    constructor
    · intro v s' heq
      simp [fallbackGo] at heq
    · intro s' heq
      simp only [fallbackGo, Prod.mk.injEq] at heq
      rw [← heq.2]
      exact hall
  | cons p rest ih =>
    intro s hall
    have htry := tryProviderGo_attempts_spec cfg exec p
      (if streaming then 1 else cfg.maxRetries + 1) 0 s hall
    constructor
    · intro v s' heq
      simp only [fallbackGo] at heq
      split at heq
      · simp at heq
      · rcases hres : tryProviderGo cfg exec p (if streaming then 1 else cfg.maxRetries + 1) 0 s
          with ⟨r, s''⟩
        rw [hres] at heq
        cases r with
        | some w =>
          simp only [Prod.mk.injEq, Option.some.injEq] at heq
          obtain ⟨h1, h2⟩ := heq
          rw [h1, h2] at hres
          exact htry.1 v s' hres
        | none =>
          have hall'' := htry.2 s'' hres
          exact (ih s'' hall'').1 v s' heq
    · intro s' heq
      simp only [fallbackGo] at heq
      split at heq
      · simp only [Prod.mk.injEq] at heq
        rw [← heq.2]
        exact hall
      · rcases hres : tryProviderGo cfg exec p (if streaming then 1 else cfg.maxRetries + 1) 0 s
          with ⟨r, s''⟩
        rw [hres] at heq
        cases r with
        | some w => simp at heq
        | none =>
          have hall'' := htry.2 s'' hres
          exact (ih s'' hall'').2 s' heq

/-- Claim C6: terminal behaviour of `executeWithFallback` — exactly one of
three outcomes. A first success short-circuits into an `.ok` result whose
attempt log is a run of failures closed by the single successful attempt
(and no terminal error is raised); with no success, the 504-class
`FallbackTimeoutError` carrying the attempt log is raised precisely when
the overall deadline tripped (`totalTimeoutMs ≤ clock`), and otherwise the
503-class `AllProvidersFailedError` is raised carrying the all-failure
attempt log from which its providers-tried summary derives. -/
theorem executeWithFallback_terminal_trichotomy {T : Type} (cfg : FallbackConfig)
    (providers : List String) (exec : Nat → ExecOutcome T) (streaming : Bool) :
    (∃ v s, fallbackFinal cfg providers exec streaming = (some v, s) ∧
      executeWithFallback cfg providers exec streaming
        = .ok ⟨v, s.attempts.length,
            (s.attempts.map (fun a => a.provider)).eraseDups.length, s.attempts⟩ ∧
      ∃ pre last, s.attempts = pre ++ [last] ∧ last.success = true ∧
        ∀ a ∈ pre, a.success = false) ∨
    (∃ s, fallbackFinal cfg providers exec streaming = (none, s) ∧
      cfg.totalTimeoutMs ≤ s.clock ∧
      executeWithFallback cfg providers exec streaming
        = .error (.fallbackTimeout cfg.totalTimeoutMs s.attempts)) ∨
    (∃ s, fallbackFinal cfg providers exec streaming = (none, s) ∧
      s.clock < cfg.totalTimeoutMs ∧
      executeWithFallback cfg providers exec streaming
        = .error (.allProvidersFailed s.attempts) ∧
      ∀ a ∈ s.attempts, a.success = false) := by
  have hspec := fallbackGo_attempts_spec cfg exec streaming providers ⟨0, []⟩ (by simp)
  rcases hfin : fallbackFinal cfg providers exec streaming with ⟨r, s⟩
  cases r with
  | some v =>
    left
    refine ⟨v, s, rfl, ?_, hspec.1 v s hfin⟩
    simp only [executeWithFallback, hfin]
  | none =>
    by_cases hclock : cfg.totalTimeoutMs ≤ s.clock
    · right; left
      refine ⟨s, rfl, hclock, ?_⟩
      simp only [executeWithFallback, hfin, if_pos hclock]
    · right; right
      refine ⟨s, rfl, not_le.mp hclock, ?_, hspec.2 s hfin⟩
      simp only [executeWithFallback, hfin, if_neg hclock]

/-- Witness for C6 (concrete instantiation): one provider whose first call
fails retryably and whose second call succeeds. -/
theorem executeWithFallback_terminal_trichotomy_witness :
    (∃ v s, fallbackFinal ⟨2, 100, 1000, 30000⟩ ["openai"]
        (fun n => if n = 0 then ExecOutcome.err true 10 else ExecOutcome.ok 42 20
          : Nat → ExecOutcome Nat) false = (some v, s) ∧
      executeWithFallback ⟨2, 100, 1000, 30000⟩ ["openai"]
          (fun n => if n = 0 then ExecOutcome.err true 10 else ExecOutcome.ok 42 20
            : Nat → ExecOutcome Nat) false
        = .ok ⟨v, s.attempts.length,
            (s.attempts.map (fun a => a.provider)).eraseDups.length, s.attempts⟩ ∧
      ∃ pre last, s.attempts = pre ++ [last] ∧ last.success = true ∧
        ∀ a ∈ pre, a.success = false) ∨
    (∃ s, fallbackFinal ⟨2, 100, 1000, 30000⟩ ["openai"]
        (fun n => if n = 0 then ExecOutcome.err true 10 else ExecOutcome.ok 42 20
          : Nat → ExecOutcome Nat) false = (none, s) ∧
      (30000 : Nat) ≤ s.clock ∧
      executeWithFallback ⟨2, 100, 1000, 30000⟩ ["openai"]
          (fun n => if n = 0 then ExecOutcome.err true 10 else ExecOutcome.ok 42 20
            : Nat → ExecOutcome Nat) false
        = .error (.fallbackTimeout 30000 s.attempts)) ∨
    (∃ s, fallbackFinal ⟨2, 100, 1000, 30000⟩ ["openai"]
        (fun n => if n = 0 then ExecOutcome.err true 10 else ExecOutcome.ok 42 20
          : Nat → ExecOutcome Nat) false = (none, s) ∧
      s.clock < 30000 ∧
      executeWithFallback ⟨2, 100, 1000, 30000⟩ ["openai"]
          (fun n => if n = 0 then ExecOutcome.err true 10 else ExecOutcome.ok 42 20
            : Nat → ExecOutcome Nat) false
        = .error (.allProvidersFailed s.attempts) ∧
      ∀ a ∈ s.attempts, a.success = false) :=
  executeWithFallback_terminal_trichotomy ⟨2, 100, 1000, 30000⟩ ["openai"]
    (fun n => if n = 0 then ExecOutcome.err true 10 else ExecOutcome.ok 42 20
      : Nat → ExecOutcome Nat) false

/-- Claim C10: with an empty provider list (and the overall deadline not yet
fired, `0 < totalTimeoutMs`), `executeWithFallback` neither returns a result
nor raises the 504 deadline error: it raises `AllProvidersFailedError`
carrying an empty attempt log. -/
theorem executeWithFallback_empty_providers {T : Type} (cfg : FallbackConfig)
    (exec : Nat → ExecOutcome T) (streaming : Bool) (h : 0 < cfg.totalTimeoutMs) :
    executeWithFallback cfg [] exec streaming = .error (.allProvidersFailed []) := by
  simp only [executeWithFallback, fallbackFinal, fallbackGo]
  rw [if_neg (by omega)]

/-- Witness for C10: the default configuration (30 s overall deadline) with
an empty provider list. -/
theorem executeWithFallback_empty_providers_witness :
    executeWithFallback ⟨3, 1000, 10000, 30000⟩ []
      (fun _ => ExecOutcome.err true 10 : Nat → ExecOutcome Nat) false
      = .error (.allProvidersFailed []) :=
  executeWithFallback_empty_providers ⟨3, 1000, 10000, 30000⟩
    (fun _ => ExecOutcome.err true 10 : Nat → ExecOutcome Nat) false (by norm_num)

/-! ## Semantic cache (`src/services/cache/semantic-cache.ts`)

The embedding generator and the cosine-distance function of the vector
index are abstract parameters (`gen`, `dist`); the Redis store is a list of
cached documents. -/

/-- Token usage triple stored with a cached response. -/
structure TokenUsage where
  prompt_tokens : Nat
  completion_tokens : Nat
  total_tokens : Nat
deriving DecidableEq, Repr

/-- Structure `CachedResponse` from `src/services/cache/semantic-cache.ts`. The
interface has exactly these fields — in particular no temperature and no
max-tokens field. -/
structure CachedResponse where
  query : String
  model : String
  response : String
  usage : TokenUsage
  embedding : List ℚ
  createdAt : Int
deriving DecidableEq, Repr

/-- Structure `CacheSearchResult` from `src/services/cache/semantic-cache.ts`. -/
structure CacheSearchResult where
  hit : Bool
  response : Option String
  usage : Option TokenUsage
  model : Option String
  score : Option ℚ
deriving DecidableEq, Repr

/-- First-character class of `validateModelName`: `[a-zA-Z0-9]`. -/
def isAlphaNumChar (c : Char) : Bool :=
  ('a' ≤ c && c ≤ 'z') || ('A' ≤ c && c ≤ 'Z') || ('0' ≤ c && c ≤ '9')

/-- Tail-character class of `validateModelName`: `[a-zA-Z0-9._:\x2f-]`. -/
def isModelTailChar (c : Char) : Bool :=
  isAlphaNumChar c || c = '.' || c = '_' || c = ':' || c = '/' || c = '-'

/-- Embeds `validateModelName`: the anchored regex
`/^[a-zA-Z0-9][a-zA-Z0-9._:\x2f-]*$/` — a nonempty string whose first
character is alphanumeric and whose remaining characters stay in the safe
class. -/
def validateModelName (model : String) : Bool :=
  match model.data with
  | [] => false
  | c :: rest => isAlphaNumChar c && rest.all isModelTailChar

/-- Character class escaped by `escapeTag` (all Redis tag-syntax specials
including braces, plus whitespace). -/
def isTagSpecialChar (c : Char) : Bool :=
  c = '\x7b' || c = '\x7d' || c = '|' || c = '@' || c = '*' || c = '(' || c = ')' ||
  c = '!' || c = '~' || c = '\\' || c = '"' || c = '\x27' ||
  c = '.' || c = ':' || c = '-' || c = '/' ||
  c = ' ' || c = '\t' || c = '\n' || c = '\r'

/-- Embeds `escapeTag`: prefix every tag-syntax special with a backslash. -/
def escapeTag (value : String) : String :=
  ⟨value.data.foldr (fun c acc => if isTagSpecialChar c then '\\' :: c :: acc else c :: acc) []⟩

/-- Chat message as passed to the cache layer. -/
structure ChatMessage where
  role : String
  content : String
deriving DecidableEq, Repr

/-- Embeds `normalizeMessages` from `src/services/cache/embeddings.ts`:
join `role: content` lines with newlines. -/
def normalizeMessages (messages : List ChatMessage) : String :=
  String.intercalate "\n" (messages.map (fun m => m.role ++ ": " ++ m.content))

/-- Modelled from the spec (§4.8 with the external Redis interface and the
index built by the missing `index-setup.ts`): the `ft.search` query
`@model:(escaped tag)=>KNN 1` — a model-equality tag filter followed by the
single nearest stored document under the index's cosine distance, with
`score` bound to that distance. For tag values produced by `escapeTag` from
`validateModelName`-accepted strings the tag filter denotes the literal
model string, so the scope is exact equality on the stored `model` field. -/
def ftSearchKnn1 (dist : List ℚ → List ℚ → ℚ) (queryEmbedding : List ℚ)
    (store : List CachedResponse) (model : String) : Option (CachedResponse × ℚ) :=
  (store.filter (fun d => d.model == model)).foldl
    (fun best d =>
      match best with
      | none => some (d, dist queryEmbedding d.embedding)
      | some (b, bs) =>
        let sc := dist queryEmbedding d.embedding
        if sc < bs then some (d, sc) else some (b, bs))
    none

/-- Embeds `semanticSearch`: reject invalid model names (miss), embed the
normalized messages, run the model-scoped KNN 1 search, and return a hit
exactly when the nearest document's cosine distance lies strictly below the
similarity threshold. No other condition is checked — the function receives
neither a temperature nor a max-tokens value. -/
def semanticSearch (gen : String → List ℚ) (dist : List ℚ → List ℚ → ℚ)
    (threshold : ℚ) (store : List CachedResponse)
    (messages : List ChatMessage) (model : String) : CacheSearchResult :=
  if ¬validateModelName model then ⟨false, none, none, none, none⟩
  else
    match ftSearchKnn1 dist (gen (normalizeMessages messages)) store model with
    | none => ⟨false, none, none, none, none⟩
    | some (doc, score) =>
      if score < threshold then
        ⟨true, some doc.response, some doc.usage, some doc.model, some score⟩
      else ⟨false, none, none, none, none⟩

/-- Embeds `cacheResponse`: reject invalid model names, else append a document
with the canonical query, model, response, usage and embedding. The stored
document carries no temperature and no max-tokens value. -/
def cacheResponse (gen : String → List ℚ) (messages : List ChatMessage)
    (model : String) (response : String) (usage : TokenUsage) (now : Int)
    (store : List CachedResponse) : List CachedResponse :=
  if ¬validateModelName model then store
  else store ++
    [⟨normalizeMessages messages, model, response, usage,
      gen (normalizeMessages messages), now⟩]

/-- Body fields of a chat-completions request relevant to the cache
middleware (`src/middleware/cache.ts`). -/
structure ChatRequestLite where
  model : String
  messages : List ChatMessage
  temperature : Option ℚ
  max_tokens : Option Nat
deriving DecidableEq, Repr

/-- The cache middleware's lookup call: `semanticSearch(body.messages,
body.model)` — temperature and max-tokens are not passed. -/
def cacheLookupForRequest (gen : String → List ℚ) (dist : List ℚ → List ℚ → ℚ)
    (threshold : ℚ) (store : List CachedResponse) (body : ChatRequestLite) :
    CacheSearchResult :=
  semanticSearch gen dist threshold store body.messages body.model

/-- Claim C4: cache isolation across model boundaries. Adding cache entries
whose model differs from the looked-up model `B` never changes the result of
a lookup for `B` (first conjunct); the lookup only sees the store filtered
to documents whose model tag equals `B` (second conjunct); and a model
string rejected by validation — every string containing vector-tag syntax
specials such as brackets, braces or wildcards is — yields a miss outright
(third conjunct). -/
theorem semanticSearch_model_scoped (gen : String → List ℚ)
    (dist : List ℚ → List ℚ → ℚ) (threshold : ℚ)
    (store extra : List CachedResponse) (msgs : List ChatMessage) (model : String)
    (hextra : ∀ d ∈ extra, d.model ≠ model) :
    semanticSearch gen dist threshold (store ++ extra) msgs model
      = semanticSearch gen dist threshold store msgs model ∧
    semanticSearch gen dist threshold store msgs model
      = semanticSearch gen dist threshold
          (store.filter (fun d => d.model == model)) msgs model ∧
    (validateModelName model = false →
      semanticSearch gen dist threshold store msgs model
        = ⟨false, none, none, none, none⟩) := by
  have hdrop : extra.filter (fun d => d.model == model) = [] := by
    rw [List.filter_eq_nil_iff]
    intro d hd
    simpa using hextra d hd
  have happend : (store ++ extra).filter (fun d => d.model == model)
      = store.filter (fun d => d.model == model) := by
    rw [List.filter_append, hdrop, List.append_nil]
  have hidem : (store.filter (fun d => d.model == model)).filter
      (fun d => d.model == model) = store.filter (fun d => d.model == model) := by
    simp [List.filter_filter]
  refine ⟨?_, ?_, ?_⟩
  · simp only [semanticSearch, ftSearchKnn1, happend]
  · simp only [semanticSearch, ftSearchKnn1, hidem]
  · intro hinvalid
    simp [semanticSearch, hinvalid]

/-- Witness for C4: a document stored under the adversarial model string
`gpt-4o[x]*` (spec scenario S6) does not perturb a lookup for `gpt-4o`. -/
theorem semanticSearch_model_scoped_witness :
    semanticSearch (fun _ => [1]) (fun _ _ => 0) (15/100)
        ([⟨"user: hi", "gpt-4o", "resp", ⟨1, 1, 2⟩, [1], 0⟩]
          ++ [⟨"user: hi", "gpt-4o[x]*", "evil", ⟨1, 1, 2⟩, [1], 0⟩])
        [⟨"user", "hi"⟩] "gpt-4o"
      = semanticSearch (fun _ => [1]) (fun _ _ => 0) (15/100)
          [⟨"user: hi", "gpt-4o", "resp", ⟨1, 1, 2⟩, [1], 0⟩] [⟨"user", "hi"⟩] "gpt-4o" ∧
    semanticSearch (fun _ => [1]) (fun _ _ => 0) (15/100)
        [⟨"user: hi", "gpt-4o", "resp", ⟨1, 1, 2⟩, [1], 0⟩] [⟨"user", "hi"⟩] "gpt-4o"
      = semanticSearch (fun _ => [1]) (fun _ _ => 0) (15/100)
          ([⟨"user: hi", "gpt-4o", "resp", ⟨1, 1, 2⟩, [1], 0⟩].filter
            (fun d => d.model == "gpt-4o")) [⟨"user", "hi"⟩] "gpt-4o" ∧
    (validateModelName "gpt-4o" = false →
      semanticSearch (fun _ => [1]) (fun _ _ => 0) (15/100)
          [⟨"user: hi", "gpt-4o", "resp", ⟨1, 1, 2⟩, [1], 0⟩] [⟨"user", "hi"⟩] "gpt-4o"
        = ⟨false, none, none, none, none⟩) :=
  semanticSearch_model_scoped (fun _ => [1]) (fun _ _ => 0) (15/100)
    [⟨"user: hi", "gpt-4o", "resp", ⟨1, 1, 2⟩, [1], 0⟩]
    [⟨"user: hi", "gpt-4o[x]*", "evil", ⟨1, 1, 2⟩, [1], 0⟩]
    [⟨"user", "hi"⟩] "gpt-4o"
    (by intro d hd; simp at hd; rw [hd]; decide)

/-- Claim C3: the spec requires a stored response to be returned only when
(a) the cosine distance is within the threshold, (b) the stored temperature
equals the request's temperature and (c) the stored max-tokens equals the
request's max_tokens; in particular a repeat of the same prompt and model
with a different temperature must miss. The code checks only (a): the
lookup result is invariant under the request's temperature and max_tokens
(first conjunct — the middleware passes neither to `semanticSearch`, and
`CachedResponse` stores neither), and concretely a response cached from a
`temperature = 0.7` request is returned as a HIT for the same prompt with
`temperature = 0.1` (second conjunct), where the claim demands a miss. -/
theorem semanticSearch_ignores_request_parameters :
    (∀ gen dist threshold store (msgs : List ChatMessage) (model : String)
      (t1 t2 : Option ℚ) (m1 m2 : Option Nat),
      cacheLookupForRequest gen dist threshold store ⟨model, msgs, t1, m1⟩
        = cacheLookupForRequest gen dist threshold store ⟨model, msgs, t2, m2⟩) ∧
    cacheLookupForRequest (fun _ => [1]) (fun _ _ => 0) (15/100)
        (cacheResponse (fun _ => [1]) [⟨"user", "What is 2+2?"⟩] "gpt-4o" "4"
          ⟨10, 1, 11⟩ 1000 [])
        ⟨"gpt-4o", [⟨"user", "What is 2+2?"⟩], some (1/10), some 100⟩
      = ⟨true, some "4", some ⟨10, 1, 11⟩, some "gpt-4o", some 0⟩ := by
  constructor
  · intro gen dist threshold store msgs model t1 t2 m1 m2
    rfl
  · have hval : validateModelName "gpt-4o" = true := by decide
    have hbeq : (("gpt-4o" : String) == "gpt-4o") = true := by decide
    simp only [cacheLookupForRequest, semanticSearch, cacheResponse, ftSearchKnn1,
      hval, hbeq, Bool.not_true, Bool.false_eq_true, if_false, List.nil_append,
      List.filter_cons, List.filter_nil, List.foldl_cons, List.foldl_nil, if_true]
    norm_num
